import Mathlib

/-!
Verification of the betamax recording HTTP proxy (Go) against its design
specification.  The Go sources are shallowly embedded below: pure helpers
become Lean functions, the per-request handler state (the shared `Config`)
is threaded explicitly, and interactions with the environment (the upstream
response produced by the forwarding primitive, the outcome of a cassette
file write, the bytes read from a cassette file) become explicit inputs.

Conventions of the embedding:
* Go `[]byte` is `List UInt8`.
* Go `http.Header` and `url.Values` (both `map[string][]string`) are
  association lists `List (String × List String)`; indexing a missing key
  yields `[]`, exactly like indexing a Go map with a `[]string` value type.
  Go maps never hold two entries with the same key; where a proof needs
  this, it appears as an explicit `Nodup` hypothesis on the key list.
* Go struct field names are kept verbatim.
-/

set_option autoImplicit false

namespace Betamax

/-- Multi-valued map (Go `map[string][]string`).  Used for both
`http.Header` and parsed forms (`url.Values`). -/
abbrev MultiMap := List (String × List String)

/-- Go map indexing `m[k]`: the values stored under `k`, or the zero value
`nil` (here `[]`) when the key is absent. -/
def mapGet (m : MultiMap) (k : String) : List String :=
  match m.find? (fun kv => kv.fst == k) with
  | some kv => kv.snd
  | none => []

/-- Embedding of the parts of `net/url.URL` the proxy reads/stores
(`sameURL` compares only `Path`, `RawQuery` and `Fragment`). -/
structure URLRec where
  Scheme : String
  Host : String
  Path : String
  RawQuery : String
  Fragment : String
  deriving DecidableEq, Repr

/-- `proxy.RecordedRequest` (declared in the repository's recorder file;
fields exactly as constructed by `recordRequest` and consumed by
`sameRequest`/`writeableEpisodes`): method, URL, header, raw body bytes,
parsed form. -/
structure RecordedRequest where
  Method : String
  URL : URLRec
  Header : MultiMap
  Body : List UInt8
  Form : MultiMap
  deriving DecidableEq, Repr

/-- `proxy.RecordedResponse`: status code, header, raw body bytes. -/
structure RecordedResponse where
  StatusCode : Nat
  Header : MultiMap
  Body : List UInt8
  deriving DecidableEq, Repr

/-- `proxy.Episode`: one recorded request/response pair. -/
structure Episode where
  Request : RecordedRequest
  Response : RecordedResponse
  deriving DecidableEq, Repr

/-- `proxy.Config` (betamax.go).  `TargetHost`, `CassetteDir` and
`Episodes` carry no json tag; the remaining fields carry the json tags
`cassette`, `record_new_episodes`, `deny_unrecorded_requests`,
`rewrite_host_header`, `match_headers`. -/
structure Config where
  TargetHost : String
  CassetteDir : String
  Episodes : List Episode
  Cassette : String
  RecordNewEpisodes : Bool
  DenyUnrecordedRequests : Bool
  RewriteHostHeader : Bool
  MatchHeaders : List String
  deriving DecidableEq, Repr

/-- A live inbound `*http.Request` as the matcher sees it.  `Form` is the
result of `peekForm` (`req.ParseMultipartForm`), i.e. the standard
library's parse of the body (and URL query) — it is determined by the
request's bytes, method, query and its `Content-Type` header, and is
carried here as an explicit field. `Body` is the result of `peekBytes`. -/
structure LiveRequest where
  Method : String
  URL : URLRec
  Header : MultiMap
  Body : List UInt8
  Form : MultiMap
  deriving DecidableEq, Repr

/-- `proxy.sameURL`: compares only path, raw query and fragment. -/
def sameURL (a b : URLRec) : Bool :=
  a.Path == b.Path && a.RawQuery == b.RawQuery && a.Fragment == b.Fragment

/-- `proxy.sameHeaders`: for each configured match header, walk the live
request's value list; inside that walk, reject on differing lengths or on
a differing value at a position.  (When the live request has no values for
the header the walk is empty and nothing is checked.) -/
def sameHeaders (recorded newRequest : MultiMap) (config : Config) : Bool :=
  config.MatchHeaders.all fun header =>
    (List.range (mapGet newRequest header).length).all fun i =>
      (mapGet newRequest header).length == (mapGet recorded header).length &&
      (mapGet newRequest header).getD i "" == (mapGet recorded header).getD i ""

/-- `proxy.sameRequest`: method, URL, selected headers, then the body:
every field of the live form must have an equal value list in the recorded
form, and when the live form is empty the raw bodies are compared
byte-for-byte (`bytes.Compare`). -/
def sameRequest (a : RecordedRequest) (b : LiveRequest) (config : Config) : Bool :=
  a.Method == b.Method &&
  sameURL a.URL b.URL &&
  sameHeaders a.Header b.Header config &&
  (b.Form.all fun kv =>
    (mapGet a.Form kv.fst).length == kv.snd.length &&
    (List.range kv.snd.length).all fun i =>
      (mapGet a.Form kv.fst).getD i "" == kv.snd.getD i "") &&
  (!b.Form.isEmpty || a.Body == b.Body)

/-- Loop body of `proxy.findEpisode`: scan a list of episodes, returning
the first whose recorded request matches the live request. -/
def findEpisodeIn (req : LiveRequest) (config : Config) : List Episode → Option Episode
  | [] => none
  | e :: rest =>
    if sameRequest e.Request req config then some e else findEpisodeIn req config rest

/-- `proxy.findEpisode`: first structural match over `config.Episodes` in
insertion order, or `none`. -/
def findEpisode (req : LiveRequest) (config : Config) : Option Episode :=
  findEpisodeIn req config config.Episodes

/-- The `Config` produced by `proxy.Proxy` before any control-endpoint
request: recording and host-rewriting on, nothing else set. -/
def baseConfig : Config :=
  { TargetHost := "", CassetteDir := "", Episodes := [], Cassette := "",
    RecordNewEpisodes := true, DenyUnrecordedRequests := false,
    RewriteHostHeader := true, MatchHeaders := [] }

/-! ### List helper lemmas -/

theorem eq_of_len_getD : ∀ (xs ys : List String), xs.length = ys.length →
    (∀ i, i < ys.length → xs.getD i "" = ys.getD i "") → xs = ys
  | [], [], _, _ => rfl
  | [], _ :: _, h, _ => by simp at h
  | _ :: _, [], h, _ => by simp at h
  | x :: xs, y :: ys, h, hget => by
    have h0 : x = y := by simpa using hget 0 (Nat.succ_pos _)
    have ht : xs = ys :=
      eq_of_len_getD xs ys (by simpa using h)
        (fun i hi => by simpa using hget (i + 1) (Nat.succ_lt_succ hi))
    rw [h0, ht]

theorem lenAndPointwise_iff (xs ys : List String) :
    (xs.length == ys.length &&
      (List.range ys.length).all fun i => xs.getD i "" == ys.getD i "") = true ↔ xs = ys := by
  rw [Bool.and_eq_true, beq_iff_eq, List.all_eq_true]
  constructor
  · rintro ⟨hlen, hget⟩
    exact eq_of_len_getD xs ys hlen
      (fun i hi => by simpa using hget i (List.mem_range.mpr hi))
  · rintro rfl
    exact ⟨rfl, fun i _ => by simp⟩

theorem rangeAll_iff (nv rv : List String) :
    ((List.range nv.length).all fun i =>
        nv.length == rv.length && nv.getD i "" == rv.getD i "") = true ↔
      (nv ≠ [] → nv = rv) := by
  rw [List.all_eq_true]
  constructor
  · intro h hne
    have hpos : 0 < nv.length := List.length_pos.mpr hne
    have h0 := h 0 (List.mem_range.mpr hpos)
    rw [Bool.and_eq_true, beq_iff_eq, beq_iff_eq] at h0
    refine eq_of_len_getD nv rv h0.1 (fun i hi => ?_)
    have hm := h i (List.mem_range.mpr (h0.1 ▸ hi))
    rw [Bool.and_eq_true, beq_iff_eq, beq_iff_eq] at hm
    exact hm.2
  · intro h i hi
    by_cases hne : nv = []
    · subst hne; simp at hi
    · obtain rfl : nv = rv := h hne
      simp

theorem listAll_congr {α : Type} (l : List α) (p q : α → Bool)
    (h : ∀ x ∈ l, p x = q x) : l.all p = l.all q := by
  induction l with
  | nil => rfl
  | cons x xs ih =>
    simp only [List.all_cons, h x (by simp), ih (fun y hy => h y (by simp [hy]))]

/-! ### Matcher characterizations -/

theorem sameHeaders_iff (recorded newRequest : MultiMap) (config : Config) :
    sameHeaders recorded newRequest config = true ↔
      ∀ h ∈ config.MatchHeaders,
        mapGet newRequest h ≠ [] → mapGet newRequest h = mapGet recorded h := by
  unfold sameHeaders
  rw [List.all_eq_true]
  exact ⟨fun H h hm => (rangeAll_iff _ _).mp (H h hm),
         fun H h hm => (rangeAll_iff _ _).mpr (H h hm)⟩

theorem sameHeaders_congr (recorded n₁ n₂ : MultiMap) (config : Config)
    (h : ∀ hd ∈ config.MatchHeaders, mapGet n₁ hd = mapGet n₂ hd) :
    sameHeaders recorded n₁ config = sameHeaders recorded n₂ config := by
  unfold sameHeaders
  exact listAll_congr _ _ _ (fun hd hm => by rw [h hd hm])

/-- C2: the matcher's header test is an equality of the per-name value
lists only for names with at least one live value; a live request missing
the header entirely is never rejected.  This theorem is the amended claim:
the iff with the live-nonempty guard, plus the guarantee that headers
outside `MatchHeaders` never affect the outcome. -/
theorem claim_C2 (recorded newRequest : MultiMap) (config : Config) :
    (sameHeaders recorded newRequest config = true ↔
      ∀ h ∈ config.MatchHeaders,
        mapGet newRequest h ≠ [] → mapGet newRequest h = mapGet recorded h) ∧
    (∀ other : MultiMap,
      (∀ h ∈ config.MatchHeaders, mapGet other h = mapGet newRequest h) →
      sameHeaders recorded other config = sameHeaders recorded newRequest config) :=
  ⟨sameHeaders_iff recorded newRequest config,
   fun other h => sameHeaders_congr recorded other newRequest config h⟩

/-- C2 counterexample: with `match_headers = ["X-Token"]`, a recorded
request carrying `X-Token: secret` and a live request carrying no
`X-Token` at all have value lists of different length, yet `sameHeaders`
declares them equal (the loop over the live request's zero values never
runs its length check). -/
theorem claim_C2_counterexample :
    sameHeaders [("X-Token", ["secret"])] []
        { baseConfig with MatchHeaders := ["X-Token"] } = true ∧
    mapGet ([] : MultiMap) "X-Token" ≠ mapGet [("X-Token", ["secret"])] "X-Token" := by
  constructor
  · rfl
  · decide

/-- C3: body identity in `sameRequest`.  With method, URL and selected
headers already matching: a non-empty live form makes the match an
entry-wise comparison driven only by the live form's fields; an empty live
form falls back to byte-for-byte body equality; and the recorded form
influences the outcome only through the fields present in the live form
(extra recorded fields are never noticed). -/
theorem claim_C3 (a : RecordedRequest) (b : LiveRequest) (config : Config)
    (hm : a.Method = b.Method) (hu : sameURL a.URL b.URL = true)
    (hh : sameHeaders a.Header b.Header config = true) :
    (b.Form ≠ [] → (sameRequest a b config = true ↔
      ∀ kv ∈ b.Form, mapGet a.Form kv.fst = kv.snd)) ∧
    (b.Form = [] → (sameRequest a b config = true ↔ a.Body = b.Body)) ∧
    (∀ f₁ f₂ : MultiMap,
      (∀ kv ∈ b.Form, mapGet f₁ kv.fst = mapGet f₂ kv.fst) →
      sameRequest { a with Form := f₁ } b config =
        sameRequest { a with Form := f₂ } b config) := by
  refine ⟨?_, ?_, ?_⟩
  · intro hne
    have hemp : b.Form.isEmpty = false := by
      cases hf : b.Form with
      | nil => exact absurd hf hne
      | cons _ _ => rfl
    simp only [sameRequest, hm, hu, hh, beq_self_eq_true, Bool.true_and, hemp,
      Bool.not_false, Bool.true_or, Bool.and_true, List.all_eq_true]
    exact ⟨fun H kv hkv => (lenAndPointwise_iff _ _).mp (H kv hkv),
           fun H kv hkv => (lenAndPointwise_iff _ _).mpr (H kv hkv)⟩
  · intro hnil
    simp only [sameRequest, hm, hu, hh, beq_self_eq_true, Bool.true_and, hnil,
      List.all_nil, List.isEmpty_nil, Bool.not_true, Bool.false_or, beq_iff_eq]
  · intro f₁ f₂ hagree
    simp only [sameRequest]
    have hforms :
        (b.Form.all fun kv =>
          (mapGet f₁ kv.fst).length == kv.snd.length &&
          (List.range kv.snd.length).all fun i =>
            (mapGet f₁ kv.fst).getD i "" == kv.snd.getD i "") =
        (b.Form.all fun kv =>
          (mapGet f₂ kv.fst).length == kv.snd.length &&
          (List.range kv.snd.length).all fun i =>
            (mapGet f₂ kv.fst).getD i "" == kv.snd.getD i "") :=
      listAll_congr _ _ _ (fun kv hkv => by rw [hagree kv hkv])
    rw [hforms]

/-! ### First-match lookup -/

theorem findEpisodeIn_none_iff (req : LiveRequest) (config : Config) (l : List Episode) :
    findEpisodeIn req config l = none ↔
      ∀ e ∈ l, sameRequest e.Request req config = false := by
  induction l with
  | nil => simp [findEpisodeIn]
  | cons e0 rest ih =>
    by_cases h : sameRequest e0.Request req config = true
    · rw [findEpisodeIn, if_pos h]
      refine ⟨(fun hnone => by cases hnone), fun hall => ?_⟩
      have hc := hall e0 (by simp)
      rw [h] at hc
      simp at hc
    · have hf : sameRequest e0.Request req config = false := Bool.eq_false_iff.mpr h
      rw [findEpisodeIn, if_neg h, ih]
      constructor
      · intro H e he
        rcases List.mem_cons.mp he with rfl | hmem
        · exact hf
        · exact H e hmem
      · intro H e he
        exact H e (List.mem_cons_of_mem _ he)

theorem findEpisodeIn_some (req : LiveRequest) (config : Config) :
    ∀ (l : List Episode) (e : Episode), findEpisodeIn req config l = some e →
      ∃ i, ∃ hi : i < l.length, l.get ⟨i, hi⟩ = e ∧
        sameRequest e.Request req config = true ∧
        ∀ j (hj : j < l.length), j < i →
          sameRequest ((l.get ⟨j, hj⟩)).Request req config = false
  | [], e, h => by simp [findEpisodeIn] at h
  | e0 :: rest, e, h => by
    by_cases hsr : sameRequest e0.Request req config = true
    · rw [findEpisodeIn, if_pos hsr] at h
      obtain rfl : e0 = e := by injection h
      exact ⟨0, Nat.succ_pos _, rfl, hsr, fun j hj hlt => absurd hlt (Nat.not_lt_zero j)⟩
    · rw [findEpisodeIn, if_neg hsr] at h
      obtain ⟨i, hi, hget, hmatch, hprev⟩ := findEpisodeIn_some req config rest e h
      refine ⟨i + 1, Nat.succ_lt_succ hi, hget, hmatch, fun j hj hlt => ?_⟩
      cases j with
      | zero => exact Bool.eq_false_iff.mpr hsr
      | succ j' =>
        exact hprev j' (Nat.lt_of_succ_lt_succ hj) (Nat.lt_of_succ_lt_succ hlt)

theorem findEpisodeIn_append (req : LiveRequest) (config : Config)
    (l₁ l₂ : List Episode)
    (h : ∀ e ∈ l₁, sameRequest e.Request req config = false) :
    findEpisodeIn req config (l₁ ++ l₂) = findEpisodeIn req config l₂ := by
  induction l₁ with
  | nil => rfl
  | cons e0 rest ih =>
    have h0 : sameRequest e0.Request req config = false := h e0 (by simp)
    rw [List.cons_append, findEpisodeIn, if_neg (by rw [h0]; exact Bool.false_ne_true)]
    exact ih (fun e he => h e (List.mem_cons_of_mem _ he))

/-- C4: `findEpisode` scans `config.Episodes` in insertion order and
returns the first episode whose recorded request matches (any
earlier-inserted episode does not match), and it returns `none` exactly
when no episode matches. -/
theorem claim_C4 (req : LiveRequest) (config : Config) :
    (∀ e, findEpisode req config = some e →
      ∃ i, ∃ hi : i < config.Episodes.length,
        config.Episodes.get ⟨i, hi⟩ = e ∧
        sameRequest e.Request req config = true ∧
        ∀ j (hj : j < config.Episodes.length), j < i →
          sameRequest ((config.Episodes.get ⟨j, hj⟩)).Request req config = false) ∧
    (findEpisode req config = none ↔
      ∀ e ∈ config.Episodes, sameRequest e.Request req config = false) :=
  ⟨fun e h => findEpisodeIn_some req config config.Episodes e h,
   findEpisodeIn_none_iff req config config.Episodes⟩

/-! ### Record / replay pipeline (proxy.go `cassetteHandler` and friends)

The handler writes to an `http.ResponseWriter` and may invoke the wrapped
forwarding handler.  We model one request's handling as a function from
the shared `Config`, the live request, the response the upstream would
produce if contacted (captured by the `ProxyResponseWriter` decorator, per
the spec's response-capture contract), and the outcome `Config.Save` would
have (`none` = wrote fine, `some e` = I/O error), to the response written
to the caller plus the updated `Config`. -/

/-- What the proxy writes back to the caller for one request.  `forwarded`
records whether the wrapped forwarding handler (the upstream call) was
invoked. -/
structure HttpOut where
  forwarded : Bool
  status : Nat
  header : MultiMap
  body : List UInt8
  deriving DecidableEq, Repr

/-- The four terminal branches of `proxy.cassetteHandler`'s if-chain, in
source order: empty cassette passthrough, replay on match, record when
enabled, deny when enabled, silent passthrough otherwise. -/
inductive Decision where
  | passthrough : Decision
  | replay : Episode → Decision
  | record : Decision
  | deny : Decision
  deriving DecidableEq, Repr

/-- Branch selection of `proxy.cassetteHandler`, read off its if-chain. -/
def cassetteDecision (config : Config) (req : LiveRequest) : Decision :=
  if config.Cassette = "" then Decision.passthrough
  else
    match findEpisode req config with
    | some e => Decision.replay e
    | none =>
      if config.RecordNewEpisodes then Decision.record
      else if config.DenyUnrecordedRequests then Decision.deny
      else Decision.passthrough

/-- `proxy.recordRequest`: snapshot of the live request (`peekBytes` body,
`peekForm` form). -/
def recordRequest (req : LiveRequest) : RecordedRequest :=
  { Method := req.Method, URL := req.URL, Header := req.Header,
    Body := req.Body, Form := req.Form }

/-- `proxy.writeEpisode`: append the episode to the in-memory sequence,
then call `config.Save()`.  The source discards `Save`'s return value
(`saveErr` here): no error escapes this function. -/
def writeEpisode (episode : Episode) (config : Config) (saveErr : Option String) : Config :=
  { config with Episodes := config.Episodes ++ [episode] }

/-- `proxy.serveAndRecord`: relay the upstream response to the caller
while buffering it, then record the episode via `writeEpisode`. -/
def serveAndRecord (req : LiveRequest) (upstream : RecordedResponse)
    (config : Config) (saveErr : Option String) : HttpOut × Config :=
  (⟨true, upstream.StatusCode, upstream.Header, upstream.Body⟩,
   writeEpisode ⟨recordRequest req, upstream⟩ config saveErr)

/-- Body of the 499 denial response written by `cassetteHandler`. -/
def denyBody : List UInt8 :=
  "BetaMax: request not recorded, neither requested.\n".toUTF8.toList

/-- `proxy.serveEpisode`: replay the stored response verbatim — every
header value pair, the stored status code, the stored body bytes — without
invoking the forwarding handler. -/
def serveEpisode (episode : Episode) : HttpOut :=
  ⟨false, episode.Response.StatusCode, episode.Response.Header, episode.Response.Body⟩

/-- `proxy.cassetteHandler` on one request: dispatch on the branch chosen
by the if-chain. -/
def cassetteHandle (config : Config) (req : LiveRequest)
    (upstream : RecordedResponse) (saveErr : Option String) : HttpOut × Config :=
  match cassetteDecision config req with
  | Decision.passthrough =>
    (⟨true, upstream.StatusCode, upstream.Header, upstream.Body⟩, config)
  | Decision.replay e => (serveEpisode e, config)
  | Decision.record => serveAndRecord req upstream config saveErr
  | Decision.deny => (⟨false, 499, [], denyBody⟩, config)

/-! ### Reflexivity and congruence of the matcher -/

theorem mapGet_self_of_nodup : ∀ (f : MultiMap) (kv : String × List String),
    (f.map Prod.fst).Nodup → kv ∈ f → mapGet f kv.fst = kv.snd
  | [], kv, _, hmem => by cases hmem
  | hd :: tl, kv, hnd, hmem => by
    rw [List.map_cons, List.nodup_cons] at hnd
    rcases List.mem_cons.mp hmem with rfl | hmem'
    · unfold mapGet
      rw [List.find?_cons_of_pos _ (by simp)]
    · have hkey : kv.fst ∈ tl.map Prod.fst := List.mem_map_of_mem Prod.fst hmem'
      have hne : hd.fst ≠ kv.fst := fun hEq => hnd.1 (hEq ▸ hkey)
      unfold mapGet
      rw [List.find?_cons_of_neg _ (by simpa using hne)]
      exact mapGet_self_of_nodup tl kv hnd.2 hmem'

theorem sameRequest_record_self (req : LiveRequest) (config : Config)
    (hnd : (req.Form.map Prod.fst).Nodup) :
    sameRequest (recordRequest req) req config = true := by
  unfold sameRequest recordRequest
  rw [Bool.and_eq_true, Bool.and_eq_true, Bool.and_eq_true, Bool.and_eq_true]
  refine ⟨⟨⟨⟨?_, ?_⟩, ?_⟩, ?_⟩, ?_⟩
  · simp
  · simp [sameURL]
  · exact (sameHeaders_iff _ _ _).mpr (fun hd _ _ => rfl)
  · exact List.all_eq_true.mpr fun kv hkv =>
      (lenAndPointwise_iff _ _).mpr (mapGet_self_of_nodup req.Form kv hnd hkv)
  · simp

theorem sameRequest_congr_live (a : RecordedRequest) (b₁ b₂ : LiveRequest)
    (config : Config)
    (hm : b₁.Method = b₂.Method)
    (hp : b₁.URL.Path = b₂.URL.Path)
    (hq : b₁.URL.RawQuery = b₂.URL.RawQuery)
    (hfr : b₁.URL.Fragment = b₂.URL.Fragment)
    (hh : ∀ hd ∈ config.MatchHeaders, mapGet b₁.Header hd = mapGet b₂.Header hd)
    (hb : b₁.Body = b₂.Body) (hform : b₁.Form = b₂.Form) :
    sameRequest a b₁ config = sameRequest a b₂ config := by
  unfold sameRequest sameURL
  rw [hm, hp, hq, hfr, hb, hform, sameHeaders_congr a.Header b₁.Header b₂.Header config hh]

/-! ### Recording then replaying -/

theorem cassetteDecision_replay (config : Config) (req : LiveRequest) (e : Episode)
    (hcas : config.Cassette ≠ "") (hfind : findEpisode req config = some e) :
    cassetteDecision config req = Decision.replay e := by
  unfold cassetteDecision
  rw [if_neg hcas, hfind]

theorem cassetteDecision_record (config : Config) (req : LiveRequest)
    (hcas : config.Cassette ≠ "") (hnone : findEpisode req config = none)
    (hrec : config.RecordNewEpisodes = true) :
    cassetteDecision config req = Decision.record := by
  unfold cassetteDecision
  rw [if_neg hcas, hnone]
  simp [hrec]

theorem cassetteDecision_deny (config : Config) (req : LiveRequest)
    (hcas : config.Cassette ≠ "") (hnone : findEpisode req config = none)
    (hrec : config.RecordNewEpisodes = false)
    (hdeny : config.DenyUnrecordedRequests = true) :
    cassetteDecision config req = Decision.deny := by
  unfold cassetteDecision
  rw [if_neg hcas, hnone]
  simp [hrec, hdeny]

theorem recordStep (config : Config) (req : LiveRequest)
    (upstream : RecordedResponse) (saveErr : Option String)
    (hcas : config.Cassette ≠ "") (hnone : findEpisode req config = none)
    (hrec : config.RecordNewEpisodes = true) :
    cassetteHandle config req upstream saveErr =
      (⟨true, upstream.StatusCode, upstream.Header, upstream.Body⟩,
       { config with Episodes := config.Episodes ++ [⟨recordRequest req, upstream⟩] }) := by
  unfold cassetteHandle
  rw [cassetteDecision_record config req hcas hnone hrec]
  rfl

theorem findEpisode_after_record (config : Config) (req1 req2 : LiveRequest)
    (upstream : RecordedResponse)
    (hnone : findEpisode req1 config = none)
    (hnd : (req1.Form.map Prod.fst).Nodup)
    (hm : req2.Method = req1.Method)
    (hp : req2.URL.Path = req1.URL.Path)
    (hq : req2.URL.RawQuery = req1.URL.RawQuery)
    (hfr : req2.URL.Fragment = req1.URL.Fragment)
    (hh : ∀ hd ∈ config.MatchHeaders, mapGet req2.Header hd = mapGet req1.Header hd)
    (hb : req2.Body = req1.Body) (hform : req2.Form = req1.Form) :
    findEpisode req2
        { config with Episodes := config.Episodes ++ [⟨recordRequest req1, upstream⟩] } =
      some ⟨recordRequest req1, upstream⟩ := by
  set cfg' : Config :=
    { config with Episodes := config.Episodes ++ [⟨recordRequest req1, upstream⟩] } with hcfg'
  have hsame : ∀ a : RecordedRequest, sameRequest a req2 cfg' = sameRequest a req1 config := by
    intro a
    have h1 : sameRequest a req2 cfg' = sameRequest a req2 config := rfl
    rw [h1]
    exact sameRequest_congr_live a req2 req1 config hm hp hq hfr hh hb hform
  have hold : ∀ e ∈ config.Episodes, sameRequest e.Request req2 cfg' = false := by
    intro e he
    rw [hsame e.Request]
    exact ((findEpisodeIn_none_iff req1 config config.Episodes).mp hnone) e he
  have hnew : sameRequest (recordRequest req1) req2 cfg' = true := by
    rw [hsame (recordRequest req1)]
    exact sameRequest_record_self req1 config hnd
  show findEpisodeIn req2 cfg' (config.Episodes ++ [⟨recordRequest req1, upstream⟩]) = _
  rw [findEpisodeIn_append req2 cfg' config.Episodes _ hold, findEpisodeIn, if_pos hnew]

/-- C1 (amended): a request recorded under an inserted cassette is
replayed — stored status code, stored header value pairs, stored body
bytes, and no invocation of the forwarding handler — by an immediately
following request that is identical in method, target, the headers listed
in `match_headers`, body, **and parsed form**; the upstream response and
save outcome supplied for the second request are irrelevant (the upstream
may be unreachable). -/
theorem claim_C1 (config : Config) (req1 : LiveRequest)
    (upstream : RecordedResponse) (saveErr : Option String)
    (req2 : LiveRequest) (upstream2 : RecordedResponse) (saveErr2 : Option String)
    (hcas : config.Cassette ≠ "")
    (hnone : findEpisode req1 config = none)
    (hrec : config.RecordNewEpisodes = true)
    (hnd : (req1.Form.map Prod.fst).Nodup)
    (hm : req2.Method = req1.Method)
    (hp : req2.URL.Path = req1.URL.Path)
    (hq : req2.URL.RawQuery = req1.URL.RawQuery)
    (hfr : req2.URL.Fragment = req1.URL.Fragment)
    (hh : ∀ hd ∈ config.MatchHeaders, mapGet req2.Header hd = mapGet req1.Header hd)
    (hb : req2.Body = req1.Body) (hform : req2.Form = req1.Form) :
    (cassetteHandle config req1 upstream saveErr).2.Episodes =
      config.Episodes ++ [⟨recordRequest req1, upstream⟩] ∧
    cassetteHandle (cassetteHandle config req1 upstream saveErr).2 req2 upstream2 saveErr2 =
      (⟨false, upstream.StatusCode, upstream.Header, upstream.Body⟩,
       (cassetteHandle config req1 upstream saveErr).2) := by
  rw [recordStep config req1 upstream saveErr hcas hnone hrec]
  refine ⟨rfl, ?_⟩
  have hfind := findEpisode_after_record config req1 req2 upstream hnone hnd hm hp hq hfr hh hb hform
  have hd2 := cassetteDecision_replay
    { config with Episodes := config.Episodes ++ [⟨recordRequest req1, upstream⟩] }
    req2 ⟨recordRequest req1, upstream⟩ hcas hfind
  unfold cassetteHandle
  rw [hd2]
  rfl

/-! ### Concrete fixtures -/

/-- Target path `/x`, no query, no fragment. -/
def urlX : URLRec :=
  { Scheme := "http", Host := "127.0.0.1:8080", Path := "/x", RawQuery := "", Fragment := "" }

/-- A 200 `hello` upstream response. -/
def upHello : RecordedResponse :=
  { StatusCode := 200, Header := [("Content-Type", ["text/plain"])],
    Body := [104, 101, 108, 108, 111] }

/-- Config with a cassette inserted and the constructor defaults
(recording on, denial off, no match headers). -/
def cfgT : Config := { baseConfig with Cassette := "test-cassette" }

/-- `POST /x` with body `a=1` sent as `text/plain`: the standard library
parses no form fields from it (`req.Form` is empty). -/
def reqPlainText : LiveRequest :=
  { Method := "POST", URL := urlX, Header := [("Content-Type", ["text/plain"])],
    Body := [97, 61, 49], Form := [] }

/-- `POST /x` with the same body `a=1` sent as
`application/x-www-form-urlencoded`: the standard library parses
`Form = {a: [1]}`. -/
def reqFormEncoded : LiveRequest :=
  { Method := "POST", URL := urlX,
    Header := [("Content-Type", ["application/x-www-form-urlencoded"])],
    Body := [97, 61, 49], Form := [("a", ["1"])] }

/-- `GET /x` with no headers and no body. -/
def reqGet : LiveRequest :=
  { Method := "GET", URL := urlX, Header := [], Body := [], Form := [] }

/-- A failing `Config.Save` outcome. -/
def saveFail : Option String :=
  some "open cassettes/test-cassette.json: permission denied"

/-- C1 counterexample: record `POST /x` body `a=1` under `text/plain`
(empty parsed form), then immediately send a request identical in method,
target, matched headers (`match_headers` is empty, its default) and body,
but with a `Content-Type` of `application/x-www-form-urlencoded` — an
unmatched header — so the standard library parses a non-empty form.  The
matcher then compares forms, the recorded form lacks field `a`, the lookup
misses, and the proxy invokes the forwarding primitive again instead of
serving the stored episode. -/
theorem claim_C1_counterexample :
    (cfgT.Cassette ≠ "" ∧ cfgT.RecordNewEpisodes = true ∧
     findEpisode reqPlainText cfgT = none ∧
     cassetteDecision cfgT reqPlainText = Decision.record) ∧
    (reqFormEncoded.Method = reqPlainText.Method ∧
     reqFormEncoded.URL = reqPlainText.URL ∧
     (∀ h ∈ cfgT.MatchHeaders,
       mapGet reqFormEncoded.Header h = mapGet reqPlainText.Header h) ∧
     reqFormEncoded.Body = reqPlainText.Body) ∧
    (cassetteHandle (cassetteHandle cfgT reqPlainText upHello none).2
        reqFormEncoded upHello none).1.forwarded = true := by
  refine ⟨⟨by decide, rfl, rfl, by decide⟩, ⟨rfl, rfl, ?_, rfl⟩, by decide⟩
  intro h hh
  simp [cfgT, baseConfig] at hh

/-- C1 witness input: cassette inserted, one matched header. -/
def cfgW1 : Config :=
  { baseConfig with Cassette := "w1", MatchHeaders := ["Content-Type"] }

/-- C1 (amended) instantiated: recording a form-encoded `POST /x` and
immediately resending the very same request replays the stored `hello`
response without forwarding. -/
theorem claim_C1_witness :
    (cassetteHandle cfgW1 reqFormEncoded upHello none).2.Episodes =
      cfgW1.Episodes ++ [⟨recordRequest reqFormEncoded, upHello⟩] ∧
    cassetteHandle (cassetteHandle cfgW1 reqFormEncoded upHello none).2
        reqFormEncoded upHello none =
      (⟨false, upHello.StatusCode, upHello.Header, upHello.Body⟩,
       (cassetteHandle cfgW1 reqFormEncoded upHello none).2) :=
  claim_C1 cfgW1 reqFormEncoded upHello none reqFormEncoded upHello none
    (by decide) rfl rfl (by decide) rfl rfl rfl rfl (fun _ _ => rfl) rfl rfl

/-- C6: with a cassette inserted, no matching episode, recording disabled
and denial enabled, the proxy answers 499 with the fixed plaintext body,
does not invoke the forwarding handler, and leaves the configuration (in
particular the episode sequence) untouched; and whenever recording is
enabled the denial branch is unreachable. -/
theorem claim_C6 (config : Config) (req : LiveRequest)
    (upstream : RecordedResponse) (saveErr : Option String)
    (h1 : config.Cassette ≠ "") (h2 : findEpisode req config = none)
    (h3 : config.RecordNewEpisodes = false)
    (h4 : config.DenyUnrecordedRequests = true) :
    cassetteDecision config req = Decision.deny ∧
    cassetteHandle config req upstream saveErr = (⟨false, 499, [], denyBody⟩, config) ∧
    ∀ (c : Config) (r : LiveRequest),
      c.RecordNewEpisodes = true → cassetteDecision c r ≠ Decision.deny := by
  have hdec := cassetteDecision_deny config req h1 h2 h3 h4
  refine ⟨hdec, ?_, ?_⟩
  · unfold cassetteHandle
    rw [hdec]
  · intro c r hrec
    unfold cassetteDecision
    by_cases hc : c.Cassette = ""
    · rw [if_pos hc]
      simp
    · rw [if_neg hc]
      cases hfe : findEpisode r c with
      | some e => simp
      | none => simp [hrec]

/-- C6 witness input: cassette inserted, recording off, denial on. -/
def cfgDeny : Config :=
  { baseConfig with
      Cassette := "isolated", RecordNewEpisodes := false,
      DenyUnrecordedRequests := true }

/-- C6 instantiated at a concrete unmatched request under deny policy. -/
theorem claim_C6_witness :
    cassetteDecision cfgDeny reqGet = Decision.deny ∧
    cassetteHandle cfgDeny reqGet upHello none = (⟨false, 499, [], denyBody⟩, cfgDeny) ∧
    ∀ (c : Config) (r : LiveRequest),
      c.RecordNewEpisodes = true → cassetteDecision c r ≠ Decision.deny :=
  claim_C6 cfgDeny reqGet upHello none (by decide) rfl rfl rfl

/-- C9 (amended): when a request is recorded, the episode is appended to
the in-memory sequence and is immediately replayable in-process, whether
or not the cassette-file write succeeded; but the save error is discarded
by `writeEpisode` — the handling of the triggering request (response and
resulting state) is identical to the successful-save case, so nothing is
surfaced to that request. -/
theorem claim_C9 (config : Config) (req : LiveRequest)
    (upstream : RecordedResponse) (saveErr : Option String)
    (hcas : config.Cassette ≠ "") (hnone : findEpisode req config = none)
    (hrec : config.RecordNewEpisodes = true)
    (hnd : (req.Form.map Prod.fst).Nodup) :
    (cassetteHandle config req upstream saveErr).2.Episodes =
      config.Episodes ++ [⟨recordRequest req, upstream⟩] ∧
    findEpisode req (cassetteHandle config req upstream saveErr).2 =
      some ⟨recordRequest req, upstream⟩ ∧
    cassetteHandle config req upstream saveErr = cassetteHandle config req upstream none := by
  rw [recordStep config req upstream saveErr hcas hnone hrec,
    recordStep config req upstream none hcas hnone hrec]
  exact ⟨rfl,
    findEpisode_after_record config req req upstream hnone hnd rfl rfl rfl rfl
      (fun _ _ => rfl) rfl rfl,
    rfl⟩

/-- C9 counterexample: a recording request whose `Config.Save` fails with
an I/O error is handled exactly as if the save had succeeded — the caller
receives the upstream 200 `hello` response, no error — even though the
episode was appended in memory.  The save error is therefore not surfaced
to the request that triggered the recording. -/
theorem claim_C9_counterexample :
    cassetteHandle cfgT reqPlainText upHello saveFail =
      cassetteHandle cfgT reqPlainText upHello none ∧
    (cassetteHandle cfgT reqPlainText upHello saveFail).1 =
      ⟨true, 200, [("Content-Type", ["text/plain"])], [104, 101, 108, 108, 111]⟩ ∧
    (cassetteHandle cfgT reqPlainText upHello saveFail).2.Episodes =
      [⟨recordRequest reqPlainText, upHello⟩] :=
  ⟨rfl, rfl, rfl⟩

/-- C9 (amended) instantiated: a concrete recording with a failing save
still appends the episode, leaves it replayable, and behaves exactly like
the successful save. -/
theorem claim_C9_witness :
    (cassetteHandle cfgT reqGet upHello saveFail).2.Episodes =
      cfgT.Episodes ++ [⟨recordRequest reqGet, upHello⟩] ∧
    findEpisode reqGet (cassetteHandle cfgT reqGet upHello saveFail).2 =
      some ⟨recordRequest reqGet, upHello⟩ ∧
    cassetteHandle cfgT reqGet upHello saveFail = cassetteHandle cfgT reqGet upHello none :=
  claim_C9 cfgT reqGet upHello saveFail (by decide) rfl rfl (by decide)

/-- C3 instantiated: recording a form-encoded request against itself. -/
theorem claim_C3_witness :
    (reqFormEncoded.Form ≠ [] →
      (sameRequest (recordRequest reqFormEncoded) reqFormEncoded cfgW1 = true ↔
        ∀ kv ∈ reqFormEncoded.Form,
          mapGet (recordRequest reqFormEncoded).Form kv.fst = kv.snd)) ∧
    (reqFormEncoded.Form = [] →
      (sameRequest (recordRequest reqFormEncoded) reqFormEncoded cfgW1 = true ↔
        (recordRequest reqFormEncoded).Body = reqFormEncoded.Body)) ∧
    (∀ f₁ f₂ : MultiMap,
      (∀ kv ∈ reqFormEncoded.Form, mapGet f₁ kv.fst = mapGet f₂ kv.fst) →
      sameRequest { recordRequest reqFormEncoded with Form := f₁ } reqFormEncoded cfgW1 =
        sameRequest { recordRequest reqFormEncoded with Form := f₂ } reqFormEncoded cfgW1) :=
  claim_C3 (recordRequest reqFormEncoded) reqFormEncoded cfgW1 rfl (by decide) (by decide)

/-! ### Episode Store: text/binary body encoding (betamax.go)

`Config.Save` marshals the `WriteableEpisode` projection with
`json.MarshalIndent` and writes the file; `Config.Load` reads it back with
`json.Unmarshal` and converts with `episodes`.  The embedding keeps the
`Writeable` structs and models the marshal/unmarshal composition
explicitly: a Go `string` value survives JSON as itself except that the
encoder replaces invalid UTF-8 with U+FFFD (`utf8Sanitize` below); a Go
`[]byte` value is written as its standard base64 text and comes back from
`json.Unmarshal` as that base64 string, which `bodyForContentType` then
decodes.  Non-body fields are Go strings/ints produced by HTTP parsing;
they are modelled as Lean `String`s/`Nat`s and JSON round-trips them
unchanged. -/

/-- Character-list test for `p` being an initial segment. -/
def leadsWith : List Char → List Char → Bool
  | [], _ => true
  | _ :: _, [] => false
  | p :: ps, c :: cs => p == c && leadsWith ps cs

/-- Character-list test for `pat` occurring anywhere. -/
def hasSub (pat : List Char) : List Char → Bool
  | [] => leadsWith pat []
  | c :: rest => leadsWith pat (c :: rest) || hasSub pat rest

/-- Go `regexp.Match("^(text/)|(json)", v)`: the alternation is an
unanchored search, so it succeeds iff `v` starts with `text/` or contains
`json` anywhere. -/
def matchesTextPattern (v : String) : Bool :=
  leadsWith "text/".data v.data || hasSub "json".data v.data

/-- `proxy.IsText` (betamax.go): nil `Content-Type` means binary,
otherwise the regex is applied to the first value.  (Go would panic on a
present-but-empty value slice; `http.Header` never stores one, and the
model returns `false` there.) -/
def IsText (headers : MultiMap) : Bool :=
  match mapGet headers "Content-Type" with
  | [] => false
  | v :: _ => matchesTextPattern v

/-- The dynamic type of the Writeable structs' body field (a Go interface
value): either a `string` or a `[]byte`, each carrying its bytes. -/
inductive WBody where
  | str : List UInt8 → WBody
  | bytes : List UInt8 → WBody
  deriving DecidableEq, Repr

/-- `proxy.WriteableRecordedRequest`. -/
structure WriteableRecordedRequest where
  Method : String
  URL : URLRec
  Header : MultiMap
  Body : WBody
  Form : MultiMap
  deriving DecidableEq, Repr

/-- `proxy.WriteableRecordedResponse`. -/
structure WriteableRecordedResponse where
  StatusCode : Nat
  Body : WBody
  Header : MultiMap
  deriving DecidableEq, Repr

/-- `proxy.WriteableEpisode`. -/
structure WriteableEpisode where
  Request : WriteableRecordedRequest
  Response : WriteableRecordedResponse
  deriving DecidableEq, Repr

/-- `proxy.writableBodyForContentType`: textual bodies are stored as a Go
string, binary bodies as the raw byte slice. -/
def writableBodyForContentType (body : List UInt8) (headers : MultiMap) : WBody :=
  if IsText headers then WBody.str body else WBody.bytes body

/-! Standard base64 (`encoding/base64.StdEncoding`), as `json.Marshal`
uses for `[]byte` values and `base64.StdEncoding.DecodeString` reverses in
`bodyForContentType`.  `61` is the pad character `=`. -/

def b64Char (n : Nat) : UInt8 :=
  if n < 26 then UInt8.ofNat (65 + n)
  else if n < 52 then UInt8.ofNat (97 + (n - 26))
  else if n < 62 then UInt8.ofNat (48 + (n - 52))
  else if n = 62 then 43 else 47

def b64Val (c : UInt8) : Nat :=
  if 65 ≤ c.toNat ∧ c.toNat ≤ 90 then c.toNat - 65
  else if 97 ≤ c.toNat ∧ c.toNat ≤ 122 then c.toNat - 97 + 26
  else if 48 ≤ c.toNat ∧ c.toNat ≤ 57 then c.toNat - 48 + 52
  else if c.toNat = 43 then 62
  else if c.toNat = 47 then 63
  else 0

def b64encode : List UInt8 → List UInt8
  | [] => []
  | [a] => [b64Char (a.toNat / 4), b64Char (a.toNat % 4 * 16), 61, 61]
  | [a, b] =>
    [b64Char (a.toNat / 4), b64Char (a.toNat % 4 * 16 + b.toNat / 16),
     b64Char (b.toNat % 16 * 4), 61]
  | a :: b :: c :: rest =>
    b64Char (a.toNat / 4) :: b64Char (a.toNat % 4 * 16 + b.toNat / 16) ::
    b64Char (b.toNat % 16 * 4 + c.toNat / 64) :: b64Char (c.toNat % 64) ::
    b64encode rest

def b64decode : List UInt8 → List UInt8
  | c1 :: c2 :: c3 :: c4 :: rest =>
    if c3 = 61 then
      [UInt8.ofNat (b64Val c1 * 4 + b64Val c2 / 16)]
    else if c4 = 61 then
      [UInt8.ofNat (b64Val c1 * 4 + b64Val c2 / 16),
       UInt8.ofNat (b64Val c2 % 16 * 16 + b64Val c3 / 4)]
    else
      UInt8.ofNat (b64Val c1 * 4 + b64Val c2 / 16) ::
      UInt8.ofNat (b64Val c2 % 16 * 16 + b64Val c3 / 4) ::
      UInt8.ofNat (b64Val c3 % 4 * 64 + b64Val c4) ::
      b64decode rest
  | _ => []

/-- `proxy.bodyForContentType`: textual headers cast the stored value to a
string; binary headers base64-decode the stored string.  (A `bytes` value
in the textual branch would make Go's type assertion panic; after JSON
decoding the value is always a string.) -/
def bodyForContentType (body : WBody) (headers : MultiMap) : List UInt8 :=
  if IsText headers then
    match body with
    | WBody.str s => s
    | WBody.bytes _ => []
  else
    match body with
    | WBody.str s => b64decode s
    | WBody.bytes _ => []

/-- `proxy.writeableEpisodes`. -/
def writeableEpisodes (eps : List Episode) : List WriteableEpisode :=
  eps.map fun episode =>
    { Request :=
        { Method := episode.Request.Method, URL := episode.Request.URL,
          Header := episode.Request.Header,
          Body := writableBodyForContentType episode.Request.Body episode.Request.Header,
          Form := episode.Request.Form },
      Response :=
        { StatusCode := episode.Response.StatusCode,
          Header := episode.Response.Header,
          Body := writableBodyForContentType episode.Response.Body episode.Response.Header } }

/-- `proxy.episodes`. -/
def episodes (ws : List WriteableEpisode) : List Episode :=
  ws.map fun w =>
    { Request :=
        { Method := w.Request.Method, URL := w.Request.URL,
          Header := w.Request.Header,
          Body := bodyForContentType w.Request.Body w.Request.Header,
          Form := w.Request.Form },
      Response :=
        { StatusCode := w.Response.StatusCode, Header := w.Response.Header,
          Body := bodyForContentType w.Response.Body w.Response.Header } }

/-! Go's JSON encoder writes strings rune by rune; any byte sequence that
is not a valid UTF-8 encoding is replaced — one byte at a time, mirroring
`utf8.DecodeRuneInString` returning `(RuneError, 1)` — by the three-byte
encoding `EF BF BD` of U+FFFD.  Decoding reproduces the replacement, so
marshal-then-unmarshal of a Go string is `utf8Sanitize`. -/

def utf8Cont (b : UInt8) : Bool := 128 ≤ b.toNat && b.toNat ≤ 191

/-- Length (1–4) of a valid UTF-8 encoding at the head of the list, or 0
when the head byte sequence is invalid (Go's accept ranges, surrogates and
overlong forms excluded). -/
def utf8SeqLen : List UInt8 → Nat
  | [] => 0
  | b0 :: rest =>
    if b0.toNat ≤ 127 then 1
    else if 194 ≤ b0.toNat && b0.toNat ≤ 223 then
      match rest with
      | b1 :: _ => if utf8Cont b1 then 2 else 0
      | [] => 0
    else if 224 ≤ b0.toNat && b0.toNat ≤ 239 then
      match rest with
      | b1 :: b2 :: _ =>
        if (if b0.toNat = 224 then 160 ≤ b1.toNat && b1.toNat ≤ 191
            else if b0.toNat = 237 then 128 ≤ b1.toNat && b1.toNat ≤ 159
            else utf8Cont b1) && utf8Cont b2 then 3 else 0
      | _ => 0
    else if 240 ≤ b0.toNat && b0.toNat ≤ 244 then
      match rest with
      | b1 :: b2 :: b3 :: _ =>
        if (if b0.toNat = 240 then 144 ≤ b1.toNat && b1.toNat ≤ 191
            else if b0.toNat = 244 then 128 ≤ b1.toNat && b1.toNat ≤ 143
            else utf8Cont b1) && utf8Cont b2 && utf8Cont b3 then 4 else 0
      | _ => 0
    else 0

/-- Worker for `utf8Sanitize`, structurally recursive on a fuel argument
so that it reduces inside the kernel; the fuel is an upper bound on the
number of bytes still to scan. -/
def utf8SanitizeGo : Nat → List UInt8 → List UInt8
  | _, [] => []
  | 0, _ :: _ => []
  | fuel + 1, b0 :: rest =>
    let n := utf8SeqLen (b0 :: rest)
    if n = 0 then 239 :: 191 :: 189 :: utf8SanitizeGo fuel rest
    else (b0 :: rest.take (n - 1)) ++ utf8SanitizeGo fuel (rest.drop (n - 1))

/-- Marshal-then-unmarshal of a Go string: valid UTF-8 sequences pass
through, each invalid byte becomes `EF BF BD` (U+FFFD). -/
def utf8Sanitize (l : List UInt8) : List UInt8 :=
  utf8SanitizeGo l.length l

/-- The marshal-then-unmarshal transformation of a Writeable body: a
string is sanitized; a byte slice is written as base64 text and read back
as that string. -/
def marshalUnmarshalBody : WBody → WBody
  | WBody.str s => WBody.str (utf8Sanitize s)
  | WBody.bytes b => WBody.str (b64encode b)

/-- Marshal-then-unmarshal of a whole `WriteableEpisode`: only the body
fields change representation. -/
def marshalUnmarshalEpisode (w : WriteableEpisode) : WriteableEpisode :=
  { Request := { w.Request with Body := marshalUnmarshalBody w.Request.Body },
    Response := { w.Response with Body := marshalUnmarshalBody w.Response.Body } }

/-- `Config.Load` applied to the file `Config.Save` wrote:
`episodes ∘ unmarshal ∘ marshal ∘ writeableEpisodes`. -/
def saveThenLoad (eps : List Episode) : List Episode :=
  episodes ((writeableEpisodes eps).map marshalUnmarshalEpisode)

/-! ### Base64 and body round-trip lemmas -/

theorem b64Val_b64Char : ∀ n < 64, b64Val (b64Char n) = n := by decide

theorem b64Char_ne_pad : ∀ n < 64, b64Char n ≠ 61 := by decide

theorem toNat_u8_lt (a : UInt8) : a.toNat < 256 := a.toNat_lt

theorem toNat_ofNat256 (m : Nat) : (UInt8.ofNat m).toNat = m % 256 := rfl

theorem ofNat_toNat_self (a : UInt8) : UInt8.ofNat (a.toNat) = a := by
  apply UInt8.ext
  rw [toNat_ofNat256, Nat.mod_eq_of_lt (toNat_u8_lt a)]

theorem b64_roundtrip : ∀ (l : List UInt8), b64decode (b64encode l) = l
  | [] => rfl
  | [a] => by
    have ha := toNat_u8_lt a
    show b64decode [b64Char (a.toNat / 4), b64Char (a.toNat % 4 * 16), 61, 61] = [a]
    rw [b64decode, if_pos rfl]
    rw [b64Val_b64Char _ (by omega), b64Val_b64Char _ (by omega)]
    have h : a.toNat / 4 * 4 + a.toNat % 4 * 16 / 16 = a.toNat := by omega
    rw [h, ofNat_toNat_self]
  | [a, b] => by
    have ha := toNat_u8_lt a
    have hb := toNat_u8_lt b
    show b64decode [b64Char (a.toNat / 4), b64Char (a.toNat % 4 * 16 + b.toNat / 16),
      b64Char (b.toNat % 16 * 4), 61] = [a, b]
    rw [b64decode, if_neg (b64Char_ne_pad _ (by omega)), if_pos rfl]
    rw [b64Val_b64Char _ (by omega), b64Val_b64Char _ (by omega), b64Val_b64Char _ (by omega)]
    have h1 : a.toNat / 4 * 4 + (a.toNat % 4 * 16 + b.toNat / 16) / 16 = a.toNat := by omega
    have h2 : (a.toNat % 4 * 16 + b.toNat / 16) % 16 * 16 + b.toNat % 16 * 4 / 4 = b.toNat := by
      omega
    rw [h1, h2, ofNat_toNat_self, ofNat_toNat_self]
  | [a, b, c] => by
    have ha := toNat_u8_lt a
    have hb := toNat_u8_lt b
    have hc := toNat_u8_lt c
    show b64decode (b64Char (a.toNat / 4) :: b64Char (a.toNat % 4 * 16 + b.toNat / 16) ::
      b64Char (b.toNat % 16 * 4 + c.toNat / 64) :: b64Char (c.toNat % 64) ::
      b64encode []) = [a, b, c]
    rw [b64decode, if_neg (b64Char_ne_pad _ (by omega)), if_neg (b64Char_ne_pad _ (by omega))]
    rw [b64Val_b64Char _ (by omega), b64Val_b64Char _ (by omega), b64Val_b64Char _ (by omega),
      b64Val_b64Char _ (by omega)]
    have h1 : a.toNat / 4 * 4 + (a.toNat % 4 * 16 + b.toNat / 16) / 16 = a.toNat := by omega
    have h2 : (a.toNat % 4 * 16 + b.toNat / 16) % 16 * 16 +
        (b.toNat % 16 * 4 + c.toNat / 64) / 4 = b.toNat := by omega
    have h3 : (b.toNat % 16 * 4 + c.toNat / 64) % 4 * 64 + c.toNat % 64 = c.toNat := by omega
    rw [h1, h2, h3, ofNat_toNat_self, ofNat_toNat_self, ofNat_toNat_self]
    rfl
  | a :: b :: c :: d :: rest => by
    have ha := toNat_u8_lt a
    have hb := toNat_u8_lt b
    have hc := toNat_u8_lt c
    show b64decode (b64Char (a.toNat / 4) :: b64Char (a.toNat % 4 * 16 + b.toNat / 16) ::
      b64Char (b.toNat % 16 * 4 + c.toNat / 64) :: b64Char (c.toNat % 64) ::
      b64encode (d :: rest)) = a :: b :: c :: d :: rest
    rw [b64decode, if_neg (b64Char_ne_pad _ (by omega)), if_neg (b64Char_ne_pad _ (by omega))]
    rw [b64Val_b64Char _ (by omega), b64Val_b64Char _ (by omega), b64Val_b64Char _ (by omega),
      b64Val_b64Char _ (by omega)]
    have h1 : a.toNat / 4 * 4 + (a.toNat % 4 * 16 + b.toNat / 16) / 16 = a.toNat := by omega
    have h2 : (a.toNat % 4 * 16 + b.toNat / 16) % 16 * 16 +
        (b.toNat % 16 * 4 + c.toNat / 64) / 4 = b.toNat := by omega
    have h3 : (b.toNat % 16 * 4 + c.toNat / 64) % 4 * 64 + c.toNat % 64 = c.toNat := by omega
    rw [h1, h2, h3, ofNat_toNat_self, ofNat_toNat_self, ofNat_toNat_self,
      b64_roundtrip (d :: rest)]

theorem roundtrip_body (body : List UInt8) (headers : MultiMap)
    (h : IsText headers = true → utf8Sanitize body = body) :
    bodyForContentType (marshalUnmarshalBody (writableBodyForContentType body headers))
      headers = body := by
  unfold writableBodyForContentType
  by_cases ht : IsText headers = true
  · rw [if_pos ht]
    show bodyForContentType (WBody.str (utf8Sanitize body)) headers = body
    unfold bodyForContentType
    rw [if_pos ht]
    exact h ht
  · rw [if_neg ht]
    show bodyForContentType (WBody.str (b64encode body)) headers = body
    unfold bodyForContentType
    rw [if_neg ht]
    exact b64_roundtrip body

/-- C5 (amended): `load(save(E)) = E` for every episode sequence whose
bodies classified as textual by their own `Content-Type` header are valid
UTF-8 (unchanged by the JSON encoder's sanitization); binary-classified
bodies — arbitrary bytes — round-trip unconditionally through base64. -/
theorem claim_C5 (E : List Episode)
    (h : ∀ ep ∈ E,
      (IsText ep.Request.Header = true → utf8Sanitize ep.Request.Body = ep.Request.Body) ∧
      (IsText ep.Response.Header = true → utf8Sanitize ep.Response.Body = ep.Response.Body)) :
    saveThenLoad E = E := by
  induction E with
  | nil => rfl
  | cons ep rest ih =>
    have hep := h ep (List.mem_cons_self ep rest)
    have hrest := ih (fun e he => h e (List.mem_cons_of_mem _ he))
    obtain ⟨⟨mq, uq, hq, bq, fq⟩, sc, hr, br⟩ := ep
    show episodes ((writeableEpisodes (⟨⟨mq, uq, hq, bq, fq⟩, sc, hr, br⟩ :: rest)).map
      marshalUnmarshalEpisode) = _
    simp only [writeableEpisodes, List.map_cons, episodes, marshalUnmarshalEpisode]
    rw [List.cons.injEq]
    refine ⟨?_, hrest⟩
    simp only [Episode.mk.injEq, RecordedRequest.mk.injEq, RecordedResponse.mk.injEq,
      roundtrip_body bq hq hep.1, roundtrip_body br hr hep.2, and_self, and_true, true_and]

/-- An episode classified as textual (`Content-Type: text/plain`) whose
body is the single byte `0xFF`, which is not valid UTF-8. -/
def epBad : Episode :=
  { Request :=
      { Method := "GET", URL := urlX, Header := [("Content-Type", ["text/plain"])],
        Body := [255], Form := [] },
    Response :=
      { StatusCode := 200, Header := [("Content-Type", ["text/plain"])], Body := [255] } }

/-- C5 counterexample: a body with bytes that are invalid UTF-8 stored
under a textual `Content-Type` does not round-trip — the JSON encoder
replaces the byte `0xFF` with U+FFFD (`EF BF BD`), so `load(save(E)) ≠ E`
even though `E` is a perfectly constructible episode sequence. -/
theorem claim_C5_counterexample :
    IsText epBad.Request.Header = true ∧ saveThenLoad [epBad] ≠ [epBad] := by
  constructor
  · rfl
  · decide

/-- C5 (amended) instantiated on a two-episode sequence mixing a valid
textual body (`hi` under `text/plain`) and a binary body (bytes `00 FF`
under `application/octet-stream`). -/
theorem claim_C5_witness :
    saveThenLoad
      [⟨{ Method := "GET", URL := urlX, Header := [("Content-Type", ["text/plain"])],
          Body := [104, 105], Form := [] },
        { StatusCode := 200, Header := [("Content-Type", ["text/plain"])],
          Body := [104, 105] }⟩,
       ⟨{ Method := "GET", URL := urlX,
          Header := [("Content-Type", ["application/octet-stream"])],
          Body := [0, 255], Form := [] },
        { StatusCode := 200, Header := [("Content-Type", ["application/octet-stream"])],
          Body := [0, 255] }⟩] =
      [⟨{ Method := "GET", URL := urlX, Header := [("Content-Type", ["text/plain"])],
          Body := [104, 105], Form := [] },
        { StatusCode := 200, Header := [("Content-Type", ["text/plain"])],
          Body := [104, 105] }⟩,
       ⟨{ Method := "GET", URL := urlX,
          Header := [("Content-Type", ["application/octet-stream"])],
          Body := [0, 255], Form := [] },
        { StatusCode := 200, Header := [("Content-Type", ["application/octet-stream"])],
          Body := [0, 255] }⟩] :=
  claim_C5 _ (by decide)

/-! ### `Config.Load` and the control endpoint (betamax.go, proxy.go) -/

/-- The environment `Config.Load` runs against once a cassette name is
set: either the cassette file does not exist (`os.Stat` reports
not-exists), or reading it failed, or it was read and `json.Unmarshal`
produced a list of writeable episodes together with an optional error.
Go's `Unmarshal` validates the whole input's syntax before decoding — a
syntax error decodes nothing — but on an `UnmarshalTypeError` inside valid
JSON it keeps decoding and returns both the partially-decoded value and
the error. -/
inductive LoadInput where
  | noFile : LoadInput
  | readErr : String → LoadInput
  | data : List WriteableEpisode → Option String → LoadInput
  deriving DecidableEq, Repr

/-- `Config.Load`: with no cassette name, reset to the no-cassette
defaults (empty episodes, recording on, rewrite on, deny off) without
touching the file; with a missing file, fresh empty cassette; with a read
error, empty episodes and the error; otherwise convert whatever the
decoder produced with `episodes` and return the decoder's error. -/
def Config.Load (c : Config) (input : LoadInput) : Config × Option String :=
  if c.Cassette = "" then
    ({ c with
        Episodes := [], RecordNewEpisodes := true, RewriteHostHeader := true,
        DenyUnrecordedRequests := false }, none)
  else
    match input with
    | LoadInput.noFile => ({ c with Episodes := [] }, none)
    | LoadInput.readErr e => ({ c with Episodes := [] }, some e)
    | LoadInput.data ws err => ({ c with Episodes := episodes ws }, err)

/-- C7 (amended): `Load` yields an empty sequence without error when no
cassette name is set (also resetting the three toggles to their
no-cassette defaults) or the file does not exist; a read failure returns
the error with an empty sequence; but a decode produces whatever episodes
the decoder yielded alongside the error — empty for malformed JSON, yet
possibly a non-empty partially-parsed set for type errors inside valid
JSON. -/
theorem claim_C7 (c : Config) (input : LoadInput) :
    (c.Cassette = "" → Config.Load c input =
      ({ c with
          Episodes := [], RecordNewEpisodes := true, RewriteHostHeader := true,
          DenyUnrecordedRequests := false }, none)) ∧
    (c.Cassette ≠ "" → Config.Load c LoadInput.noFile = ({ c with Episodes := [] }, none)) ∧
    (c.Cassette ≠ "" → ∀ e, Config.Load c (LoadInput.readErr e) =
      ({ c with Episodes := [] }, some e)) ∧
    (c.Cassette ≠ "" → ∀ ws err, Config.Load c (LoadInput.data ws err) =
      ({ c with Episodes := episodes ws }, err)) := by
  refine ⟨fun h => ?_, fun h => ?_, fun h e => ?_, fun h ws err => ?_⟩
  · unfold Config.Load
    rw [if_pos h]
  · unfold Config.Load
    rw [if_neg h]
  · unfold Config.Load
    rw [if_neg h]
  · unfold Config.Load
    rw [if_neg h]

/-- A writeable episode as Go's decoder would leave it after hitting a
type error: consider a cassette file that is a valid JSON array of one
episode object whose Request object carries the number 5 under the key
Method (instead of a string), a URL object, a Content-Type text/plain
header, body "hi" and a null Form, and whose Response object carries
status 200, the same header and body "ok".  `json.Unmarshal` reports the
type error on Method but decodes everything else; `Method` keeps its zero
value. -/
def wepPartial : WriteableEpisode :=
  { Request :=
      { Method := "", URL := urlX, Header := [("Content-Type", ["text/plain"])],
        Body := WBody.str [104, 105], Form := [] },
    Response :=
      { StatusCode := 200, Body := WBody.str [111, 107],
        Header := [("Content-Type", ["text/plain"])] } }

/-- The error Go's decoder returns for that document. -/
def unmarshalTypeErr : String :=
  "json: cannot unmarshal number into Go struct field WriteableRecordedRequest.Request.Method of type string"

/-- C7 counterexample: a cassette file that is valid JSON but mistypes one
field makes `json.Unmarshal` return an error *and* a partially-decoded
value; `Config.Load` stores the converted partial set and returns the
error, so the in-memory sequence is not empty as the claim requires. -/
theorem claim_C7_counterexample :
    (Config.Load cfgT (LoadInput.data [wepPartial] (some unmarshalTypeErr))).2 =
      some unmarshalTypeErr ∧
    (Config.Load cfgT (LoadInput.data [wepPartial] (some unmarshalTypeErr))).1.Episodes ≠ [] := by
  exact ⟨rfl, by decide⟩

/-- C7 (amended) instantiated: the no-cassette, missing-file, read-error
and decoded cases at concrete inputs. -/
theorem claim_C7_witness :
    (baseConfig.Cassette = "" → Config.Load baseConfig LoadInput.noFile =
      ({ baseConfig with
          Episodes := [], RecordNewEpisodes := true, RewriteHostHeader := true,
          DenyUnrecordedRequests := false }, none)) ∧
    (baseConfig.Cassette ≠ "" → Config.Load baseConfig LoadInput.noFile =
      ({ baseConfig with Episodes := [] }, none)) ∧
    (baseConfig.Cassette ≠ "" → ∀ e, Config.Load baseConfig (LoadInput.readErr e) =
      ({ baseConfig with Episodes := [] }, some e)) ∧
    (baseConfig.Cassette ≠ "" → ∀ ws err, Config.Load baseConfig (LoadInput.data ws err) =
      ({ baseConfig with Episodes := episodes ws }, err)) :=
  claim_C7 baseConfig LoadInput.noFile

/-- A successfully-decoded control-endpoint POST body:
`json.Decoder.Decode` into the existing `*Config` overwrites exactly the
fields whose keys are present and leaves the others untouched. -/
structure ConfigPatch where
  Cassette : Option String
  RecordNewEpisodes : Option Bool
  DenyUnrecordedRequests : Option Bool
  RewriteHostHeader : Option Bool
  MatchHeaders : Option (List String)
  deriving DecidableEq, Repr

/-- Effect of `json.NewDecoder(req.Body).Decode(config)` for a body
containing the supplied fields. -/
def applyPatch (c : Config) (p : ConfigPatch) : Config :=
  { c with
      Cassette := p.Cassette.getD c.Cassette,
      RecordNewEpisodes := p.RecordNewEpisodes.getD c.RecordNewEpisodes,
      DenyUnrecordedRequests := p.DenyUnrecordedRequests.getD c.DenyUnrecordedRequests,
      RewriteHostHeader := p.RewriteHostHeader.getD c.RewriteHostHeader,
      MatchHeaders := p.MatchHeaders.getD c.MatchHeaders }

/-- `handleConfigRequest`, POST branch: decode the body into the shared
config, then `config.Load()`. -/
def handleConfigPost (c : Config) (p : ConfigPatch) (input : LoadInput) :
    Config × Option String :=
  Config.Load (applyPatch c p) input

/-- C8 (amended): a POST overwrites exactly the supplied fields and then
reloads the named cassette's episodes; unspecified fields keep their
previous values **except** when the effective cassette name is empty, in
which case the subsequent `Load` resets `record_new_episodes := true`,
`rewrite_host_header := true` and `deny_unrecorded_requests := false`. -/
theorem claim_C8 (c : Config) (p : ConfigPatch) (input : LoadInput) :
    ((applyPatch c p).Cassette = p.Cassette.getD c.Cassette ∧
     (applyPatch c p).RecordNewEpisodes = p.RecordNewEpisodes.getD c.RecordNewEpisodes ∧
     (applyPatch c p).DenyUnrecordedRequests =
       p.DenyUnrecordedRequests.getD c.DenyUnrecordedRequests ∧
     (applyPatch c p).RewriteHostHeader = p.RewriteHostHeader.getD c.RewriteHostHeader ∧
     (applyPatch c p).MatchHeaders = p.MatchHeaders.getD c.MatchHeaders) ∧
    handleConfigPost c p input = Config.Load (applyPatch c p) input ∧
    ((applyPatch c p).Cassette ≠ "" →
      ((handleConfigPost c p input).1.Cassette = (applyPatch c p).Cassette ∧
       (handleConfigPost c p input).1.RecordNewEpisodes = (applyPatch c p).RecordNewEpisodes ∧
       (handleConfigPost c p input).1.DenyUnrecordedRequests =
         (applyPatch c p).DenyUnrecordedRequests ∧
       (handleConfigPost c p input).1.RewriteHostHeader = (applyPatch c p).RewriteHostHeader ∧
       (handleConfigPost c p input).1.MatchHeaders = (applyPatch c p).MatchHeaders)) ∧
    ((applyPatch c p).Cassette ≠ "" → ∀ ws err,
      (handleConfigPost c p (LoadInput.data ws err)).1.Episodes = episodes ws ∧
      (handleConfigPost c p LoadInput.noFile).1.Episodes = []) ∧
    ((applyPatch c p).Cassette = "" →
      (handleConfigPost c p input).1 =
        { applyPatch c p with
            Episodes := [], RecordNewEpisodes := true, RewriteHostHeader := true,
            DenyUnrecordedRequests := false }) := by
  refine ⟨⟨rfl, rfl, rfl, rfl, rfl⟩, rfl, fun h => ?_, fun h ws err => ?_, fun h => ?_⟩
  · unfold handleConfigPost Config.Load
    rw [if_neg h]
    cases input with
    | noFile => exact ⟨rfl, rfl, rfl, rfl, rfl⟩
    | readErr e => exact ⟨rfl, rfl, rfl, rfl, rfl⟩
    | data ws err => exact ⟨rfl, rfl, rfl, rfl, rfl⟩
  · unfold handleConfigPost Config.Load
    rw [if_neg h, if_neg h]
    exact ⟨rfl, rfl⟩
  · unfold handleConfigPost Config.Load
    rw [if_pos h]

/-- Reachable configuration: a cassette is inserted and recording was
switched off by an earlier POST. -/
def cfgRecOff : Config :=
  { baseConfig with Cassette := "x", RecordNewEpisodes := false }

/-- POST body `{"cassette": ""}`: ejects the cassette, says nothing about
any other field. -/
def patchEject : ConfigPatch :=
  { Cassette := some "", RecordNewEpisodes := none, DenyUnrecordedRequests := none,
    RewriteHostHeader := none, MatchHeaders := none }

/-- C8 counterexample: starting from a config with a cassette inserted and
`record_new_episodes = false`, the POST body `{"cassette": ""}` does not
mention `record_new_episodes`, yet after the POST it is `true`: the
`Load` triggered by the POST resets the toggles whenever the resulting
cassette name is empty.  An unspecified field did not keep its previous
value. -/
theorem claim_C8_counterexample :
    patchEject.RecordNewEpisodes = none ∧
    cfgRecOff.RecordNewEpisodes = false ∧
    (handleConfigPost cfgRecOff patchEject LoadInput.noFile).1.RecordNewEpisodes = true :=
  ⟨rfl, rfl, rfl⟩

/-- The JSON value kinds appearing in the marshalled `Config`. -/
inductive CfgVal where
  | str : String → CfgVal
  | bool : Bool → CfgVal
  | strList : List String → CfgVal
  | eps : List Episode → CfgVal
  deriving DecidableEq, Repr

/-- Go `encoding/json` marshalling of `Config`, as the control endpoint's
GET emits it: every exported field is emitted; the untagged fields
(`TargetHost`, `CassetteDir`, `Episodes`) under their Go field names, the
tagged fields under their json tags. -/
def encodeConfig (c : Config) : List (String × CfgVal) :=
  [("TargetHost", CfgVal.str c.TargetHost),
   ("CassetteDir", CfgVal.str c.CassetteDir),
   ("Episodes", CfgVal.eps c.Episodes),
   ("cassette", CfgVal.str c.Cassette),
   ("record_new_episodes", CfgVal.bool c.RecordNewEpisodes),
   ("deny_unrecorded_requests", CfgVal.bool c.DenyUnrecordedRequests),
   ("rewrite_host_header", CfgVal.bool c.RewriteHostHeader),
   ("match_headers", CfgVal.strList c.MatchHeaders)]

/-- `handleConfigRequest`, GET branch: `json.NewEncoder(resp).Encode(config)`. -/
def handleConfigGet (c : Config) : List (String × CfgVal) :=
  encodeConfig c

/-- C10 (amended): the GET response carries the cassette name, the three
policy toggles and the matched-header list — and additionally the untagged
exported fields `TargetHost`, `CassetteDir` and the full `Episodes`
sequence, which Go's marshaller does not omit. -/
theorem claim_C10 (c : Config) :
    ("cassette", CfgVal.str c.Cassette) ∈ handleConfigGet c ∧
    ("record_new_episodes", CfgVal.bool c.RecordNewEpisodes) ∈ handleConfigGet c ∧
    ("deny_unrecorded_requests", CfgVal.bool c.DenyUnrecordedRequests) ∈ handleConfigGet c ∧
    ("rewrite_host_header", CfgVal.bool c.RewriteHostHeader) ∈ handleConfigGet c ∧
    ("match_headers", CfgVal.strList c.MatchHeaders) ∈ handleConfigGet c ∧
    ("Episodes", CfgVal.eps c.Episodes) ∈ handleConfigGet c ∧
    ("TargetHost", CfgVal.str c.TargetHost) ∈ handleConfigGet c ∧
    ("CassetteDir", CfgVal.str c.CassetteDir) ∈ handleConfigGet c := by
  refine ⟨?_, ?_, ?_, ?_, ?_, ?_, ?_, ?_⟩ <;> simp [handleConfigGet, encodeConfig]

/-- A configuration holding one recorded episode. -/
def cfgWithEpisode : Config :=
  { cfgT with Episodes := [⟨recordRequest reqGet, upHello⟩] }

/-- C10 counterexample: the GET serialization of a configuration with one
loaded episode contains an `"Episodes"` key carrying that (non-empty)
episode sequence — the claim that episodes are not included in the
serialized form is false. -/
theorem claim_C10_counterexample :
    ("Episodes", CfgVal.eps cfgWithEpisode.Episodes) ∈ handleConfigGet cfgWithEpisode ∧
    cfgWithEpisode.Episodes ≠ [] := by
  constructor
  · simp [handleConfigGet, encodeConfig]
  · decide

end Betamax
